import Mathlib

/-!
Shallow embedding of the qlog structured-logging package (Go).

The embedding follows src/log.go and the default-logger configuration file.
Label values are modelled by the closed set of kinds that the encoder's type
switch distinguishes; calls into the Go standard library whose exact text does
not matter to any property (float formatting, the generic percent-v rendering
of floats and of function values) are abstracted into a record of rendering
primitives that every definition takes as an explicit argument.
-/

namespace QLog

/-- Abstract renderings of Go standard-library formatting calls that the
encoder delegates to: strconv.FormatFloat with format f and precision 2
(formatFloat2), the generic percent-v rendering of a float64, of a float32,
and of a function value (an address). These are external to the repository;
all theorems hold for every choice of them. -/
structure Prims where
  formatFloat2 : Float → String
  fmtVFloat64 : Float → String
  fmtVFloat32 : Float → String
  fmtVFunc : String

/-- A label element (Go any), restricted to the kinds the encoder's type
switch distinguishes. The stringer constructor carries the string its
String method returns; the other constructor carries the generic percent-v
rendering of a value outside the supported kinds. float32 payloads carry the
exact float64 obtained by Go's (exact) widening conversion. -/
inductive GoVal where
  | str (s : String)
  | int (i : Int)
  | uint (u : Nat)
  | bool (b : Bool)
  | float32 (x : Float)
  | float64 (x : Float)
  | stringer (s : String)
  | fnStr (f : Unit → String)
  | fnInt (f : Unit → Int)
  | fnUint (f : Unit → Nat)
  | fnBool (f : Unit → Bool)
  | fnFloat32 (f : Unit → Float)
  | fnFloat64 (f : Unit → Float)
  | other (s : String)

/-- fmt.Sprintf with verb percent-v applied to a label element: strings are
verbatim, ints and uints decimal, bools true/false, a Stringer prints its
String method result, funcs print an address, anything else prints its
carried rendering. -/
def goFmtV (P : Prims) : GoVal → String
  | .str s => s
  | .int i => toString i
  | .uint u => toString u
  | .bool b => if b then "true" else "false"
  | .float32 x => P.fmtVFloat32 x
  | .float64 x => P.fmtVFloat64 x
  | .stringer s => s
  | .fnStr _ => P.fmtVFunc
  | .fnInt _ => P.fmtVFunc
  | .fnUint _ => P.fmtVFunc
  | .fnBool _ => P.fmtVFunc
  | .fnFloat32 _ => P.fmtVFunc
  | .fnFloat64 _ => P.fmtVFunc
  | .other s => s

/-- Whether the Go type assertion labels[i].(string) succeeds. -/
def isStrKey : GoVal → Bool
  | .str _ => true
  | _ => false

/-- The key text of labels[i].(string), empty when the assertion fails. -/
def strKey : GoVal → String
  | .str s => s
  | _ => ""

/-- Value rendering of the per-call path (the switch in Log.log), paired with
the number of lazy thunks it invokes (1 for the func cases, 0 otherwise). -/
def renderVal (P : Prims) : GoVal → String × Nat
  | .str s => ("\"" ++ s ++ "\"", 0)
  | .int i => (toString i, 0)
  | .uint u => (toString u, 0)
  | .bool b => ((if b then "true" else "false"), 0)
  | .float32 x => (P.formatFloat2 x, 0)
  | .float64 x => (P.formatFloat2 x, 0)
  | .stringer s => (s, 0)
  | .fnStr f => ("\"" ++ f () ++ "\"", 1)
  | .fnInt f => (toString (f ()), 1)
  | .fnUint f => (toString (f ()), 1)
  | .fnBool f => ((if f () then "true" else "false"), 1)
  | .fnFloat32 f => (P.formatFloat2 (f ()), 1)
  | .fnFloat64 f => (P.formatFloat2 (f ()), 1)
  | .other s => (s, 0)

/-- Value rendering of the common-label path (the switch in writeLabels):
identical to the per-call path except that there are no func cases, so a
thunk falls through to the default generic percent-v branch. -/
def renderValCommon (P : Prims) : GoVal → String
  | .str s => "\"" ++ s ++ "\""
  | .int i => toString i
  | .uint u => toString u
  | .bool b => if b then "true" else "false"
  | .float32 x => P.formatFloat2 x
  | .float64 x => P.formatFloat2 x
  | .stringer s => s
  | v => goFmtV P v

/-- The odd-length correction applied before pair processing in both Log.log
and writeLabels: when len(labels) is odd the sentinel value "#missing#" is
appended. -/
def balance (labels : List GoVal) : List GoVal :=
  if labels.length % 2 ≠ 0 then labels ++ [GoVal.str "#missing#"] else labels

/-- The four separator strings openLog, closeLog, openField, closeField of
Log.log. -/
structure Seps where
  openLog : String
  closeLog : String
  openField : String
  closeField : String

def jsonSeps : Seps := ⟨"\x7b \"", " \x7d", ", \"", "\": "⟩

def logfmtSeps : Seps := ⟨"", "", " ", "="⟩

def sepsFor (outputJSON : Bool) : Seps :=
  if outputJSON then jsonSeps else logfmtSeps

/-- One iteration of the label loop in Log.log: a key (with the generic
fallback when the string assertion fails) and a value, emitted as
openField key closeField value; the second component counts thunk
invocations. -/
def renderPairLog (P : Prims) (S : Seps) (k v : GoVal) : String × Nat :=
  let key := if isStrKey k then strKey k else goFmtV P k
  let r := renderVal P v
  (S.openField ++ key ++ S.closeField ++ r.1, r.2)

/-- The label loop of Log.log over an explicit list. The loop reads elements
at indices i and i plus 1; a leftover single element corresponds to an
out-of-bounds index access, modelled as none. -/
def renderPairsLog (P : Prims) (S : Seps) : List GoVal → Option (String × Nat)
  | [] => some ("", 0)
  | [_] => none
  | k :: v :: rest =>
    match renderPairsLog P S rest with
    | none => none
    | some r => some ((renderPairLog P S k v).1 ++ r.1, (renderPairLog P S k v).2 + r.2)

/-- One iteration of the label loop in writeLabels: a pair whose key fails
the string assertion is skipped entirely (the Go continue), so it contributes
nothing to the fragment. -/
def wlPair (P : Prims) (oF cF : String) (k v : GoVal) : String :=
  match k with
  | .str key => oF ++ key ++ cF ++ renderValCommon P v
  | _ => ""

/-- The label loop of writeLabels over an explicit list, with the same
out-of-bounds modelling as renderPairsLog. -/
def writeLabelsPairs (P : Prims) (oF cF : String) : List GoVal → Option String
  | [] => some ""
  | [_] => none
  | k :: v :: rest =>
    match writeLabelsPairs P oF cF rest with
    | none => none
    | some s => some (wlPair P oF cF k v ++ s)

/-- writeLabels: balance the label list, pick the separators for the output
format, and run the pair loop. -/
def writeLabels (P : Prims) (outputJSON : Bool) (labels : List GoVal) : Option String :=
  let oF := if outputJSON then ", \"" else " "
  let cF := if outputJSON then "\": " else "="
  writeLabelsPairs P oF cF (balance labels)

/-- strings.Contains(s, a one-character quote pattern): whether any character
of s is a double quote. -/
def containsQuote (s : String) : Bool :=
  s.data.any (fun c => c == '\"')

/-- strings.ReplaceAll for the one-character pattern quote and the
two-character replacement backslash quote, character by character. -/
def escQ : List Char → List Char
  | [] => []
  | c :: rest => if c = '\"' then '\\' :: '\"' :: escQ rest else c :: escQ rest

/-- Quote escaping applied to the message and to the error text in Log.log:
replace every double quote by backslash quote, guarded by a containment
check. -/
def escapeQuotes (s : String) : String :=
  if containsQuote s then String.mk (escQ s.data) else s

/-- Default value of the TraceIDFieldName configuration variable. -/
def TraceIDFieldName : String := "trace"

/-- A Log value: the struct of src/log.go. The sink is identified by a
numeric handle. -/
structure Log where
  commonLabels : String
  outputMask : Nat
  outputJSON : Bool
  Writer : Nat

/-- The sink handle of os.Stderr, the Writer New assigns. -/
def stderrHandle : Nat := 0

/-- The trace, severity and timestamp fields that open every line built by
Log.log. -/
def lineHeadCore (S : Seps) (tid ts sev : String) : String :=
  S.openLog ++ TraceIDFieldName ++ S.closeField ++ "\"" ++ tid
    ++ "\"" ++ S.openField ++ "severity" ++ S.closeField ++ "\"" ++ sev
    ++ "\"" ++ S.openField ++ "timestamp" ++ S.closeField ++ "\"" ++ ts
    ++ "\""

/-- The fixed head of a line built by Log.log: trace, severity and timestamp
fields, the optional error field (note the stray extra quote the code appends
before the error field), then the precomputed common-label fragment. -/
def lineHead (l : Log) (tid ts sev : String) (err : Option String) : String :=
  let S := sepsFor l.outputJSON
  (match err with
   | none => lineHeadCore S tid ts sev
   | some e => lineHeadCore S tid ts sev
       ++ "\"" ++ S.openField ++ "error" ++ S.closeField ++ "\"" ++ escapeQuotes e ++ "\"")
  ++ l.commonLabels

/-- The tail of a line built by Log.log: the message field with quote
escaping, the closing brace for JSON, and the newline. -/
def msgTail (S : Seps) (message : String) : String :=
  S.openField ++ "message" ++ S.closeField ++ "\"" ++ escapeQuotes message ++ "\"" ++ S.closeLog ++ "\n"

/-- Log.log: build the full line and count thunk invocations. tid is the
TraceID read from the context and ts the formatted UTC timestamp, both passed
explicitly since the clock and the trace accessor are process hooks. -/
def logLine (P : Prims) (l : Log) (tid ts sev message : String)
    (err : Option String) (labels : List GoVal) : Option (String × Nat) :=
  let S := sepsFor l.outputJSON
  match renderPairsLog P S (balance labels) with
  | none => none
  | some r => some (lineHead l tid ts sev err ++ r.1 ++ msgTail S message, r.2)

-- OutputMask flags, as in src/log.go.
def OutputFlagNone : Nat := 0
def OutputFlagFatal : Nat := 1
def OutputFlagError : Nat := 2
def OutputFlagWarning : Nat := 4
def OutputFlagNotice : Nat := 8
def OutputFlagInfo : Nat := 16
def OutputFlagTrace : Nat := 32
def OutputFlagDebug : Nat := 64

def OutputMaskImportant : Nat :=
  OutputFlagFatal ||| OutputFlagError ||| OutputFlagWarning ||| OutputFlagNotice
def OutputMaskDetail : Nat := OutputMaskImportant ||| OutputFlagInfo
def OutputMaskAll : Nat := OutputMaskDetail ||| OutputFlagDebug

/-- Observable effects of one severity call: the bytes written to the sink
(empty when the mask gate fails), the number of lazy thunks invoked, and
whether the termination hook FatalFunc ran. -/
structure EmitResult where
  written : String
  thunks : Nat
  fatalCalled : Bool

/-- The shared shape of every severity method: test the mask bit and return
with no effect when it is unset, otherwise build and write the line (and for
Fatal invoke the termination hook afterwards). -/
def gatedEmit (P : Prims) (l : Log) (flag : Nat) (sev : String) (tid ts message : String)
    (err : Option String) (labels : List GoVal) (fatalAfter : Bool) : Option EmitResult :=
  if l.outputMask &&& flag = 0 then some ⟨"", 0, false⟩
  else
    match logLine P l tid ts sev message err labels with
    | none => none
    | some r => some ⟨r.1, r.2, fatalAfter⟩

def Log.Fatal (P : Prims) (l : Log) (tid ts message : String) (err : Option String)
    (labels : List GoVal) : Option EmitResult :=
  gatedEmit P l OutputFlagFatal "FATAL" tid ts message err labels true

def Log.Error (P : Prims) (l : Log) (tid ts message : String) (err : Option String)
    (labels : List GoVal) : Option EmitResult :=
  gatedEmit P l OutputFlagError "ERROR" tid ts message err labels false

def Log.Warning (P : Prims) (l : Log) (tid ts message : String) (err : Option String)
    (labels : List GoVal) : Option EmitResult :=
  gatedEmit P l OutputFlagWarning "WARNING" tid ts message err labels false

def Log.Notice (P : Prims) (l : Log) (tid ts message : String)
    (labels : List GoVal) : Option EmitResult :=
  gatedEmit P l OutputFlagNotice "NOTICE" tid ts message none labels false

def Log.Info (P : Prims) (l : Log) (tid ts message : String)
    (labels : List GoVal) : Option EmitResult :=
  gatedEmit P l OutputFlagInfo "INFO" tid ts message none labels false

/-- Trace: gate on the Trace flag, then log with severity DEBUG and the two
extra elements "trace", true appended after the caller labels. -/
def Log.Trace (P : Prims) (l : Log) (tid ts message : String)
    (labels : List GoVal) : Option EmitResult :=
  gatedEmit P l OutputFlagTrace "DEBUG" tid ts message none
    (labels ++ [GoVal.str "trace", GoVal.bool true]) false

def Log.Debug (P : Prims) (l : Log) (tid ts message : String)
    (labels : List GoVal) : Option EmitResult :=
  gatedEmit P l OutputFlagDebug "DEBUG" tid ts message none labels false

/-- New: pre-render the common labels with writeLabels and store the
configuration; the Writer is os.Stderr. -/
def New (P : Prims) (outputMask : Nat) (outputJSON : Bool) (labels : List GoVal) : Option Log :=
  (writeLabels P outputJSON labels).map fun s =>
    { commonLabels := s, outputMask := outputMask, outputJSON := outputJSON,
      Writer := stderrHandle }

/-- WithLabels: render the new fragment with the receiver's format and build
the derived Log. The Go composite literal at src/log.go line 136 names only
outputMask, commonLabels and Writer, so the derived value's outputJSON field
takes the zero value false. -/
def Log.WithLabels (P : Prims) (l : Log) (labels : List GoVal) : Option Log :=
  (writeLabels P l.outputJSON labels).map fun s =>
    { commonLabels := l.commonLabels ++ s, outputMask := l.outputMask,
      outputJSON := false, Writer := l.Writer }

/-- SetOutputJSON on the default logger: rebuild with New (no labels), then
restore the previous Writer. -/
def SetOutputJSON (P : Prims) (defaultLog : Log) (v : Bool) : Option Log :=
  (New P defaultLog.outputMask v []).map fun l =>
    { l with Writer := defaultLog.Writer }

/-- A context key: the package's unexported trace key or any other key. -/
inductive CtxKey where
  | traceKey
  | otherKey (n : Nat)
deriving DecidableEq

/-- A non-nil context carrier: context.Background or context.WithValue. -/
inductive Ctx where
  | background
  | withValue (parent : Ctx) (k : CtxKey) (v : String)

/-- ctx.Value: innermost-wins lookup along the parent chain. -/
def ctxValue : Ctx → CtxKey → Option String
  | .background, _ => none
  | .withValue p k v, q => if k = q then some v else ctxValue p q

/-- The default TraceID accessor: the value under the trace key, or the empty
string when the type assertion on a missing value fails. -/
def TraceID (ctx : Ctx) : String :=
  (ctxValue ctx CtxKey.traceKey).getD ""

/-- ContextFrom on a non-nil carrier (a nil carrier panics in the Go code and
is outside this model): attach the supplied identifier, or the freshly
generated one genID when the supplied identifier is empty. genID stands for
the value the stateful generator newSpanID returns on this call. -/
def ContextFrom (ctx : Ctx) (traceID : String) (genID : String) : Ctx :=
  Ctx.withValue ctx CtxKey.traceKey (if traceID = "" then genID else traceID)

/-- Whether a trace identifier is attached anywhere in the carrier chain. -/
def hasTraceID (ctx : Ctx) : Bool :=
  (ctxValue ctx CtxKey.traceKey).isSome

/-- The 19-character padding string of the identifier generator. -/
def spanPad : String := "XXXXXXXXXXXXXXXXXXX"

/-- newSpanID applied to the random non-negative integer n drawn from the
seeded source: the decimal digits of n, right-padded with the filler string
and truncated to its length (a byte slice of the concatenation; every
character involved is ASCII, so characters and bytes coincide). -/
def newSpanID (n : Nat) : String :=
  String.mk (((toString n).data ++ spanPad.data).take spanPad.data.length)

/-- The seven severity operations, for properties quantified over all of
them. -/
inductive Sev where
  | fatal
  | error
  | warning
  | notice
  | info
  | trace
  | debug
deriving DecidableEq

/-- The mask bit each severity operation tests. -/
def flagOf : Sev → Nat
  | .fatal => OutputFlagFatal
  | .error => OutputFlagError
  | .warning => OutputFlagWarning
  | .notice => OutputFlagNotice
  | .info => OutputFlagInfo
  | .trace => OutputFlagTrace
  | .debug => OutputFlagDebug

/-- Dispatch to the severity method named by s. Notice, Info, Trace and Debug
have no error parameter, so the err argument is ignored for them. -/
def callSev (P : Prims) (s : Sev) (l : Log) (tid ts message : String)
    (err : Option String) (labels : List GoVal) : Option EmitResult :=
  match s with
  | .fatal => Log.Fatal P l tid ts message err labels
  | .error => Log.Error P l tid ts message err labels
  | .warning => Log.Warning P l tid ts message err labels
  | .notice => Log.Notice P l tid ts message labels
  | .info => Log.Info P l tid ts message labels
  | .trace => Log.Trace P l tid ts message labels
  | .debug => Log.Debug P l tid ts message labels

/-- A concrete primitives record used to evaluate the model at concrete
inputs. -/
def Prims0 : Prims :=
  { formatFloat2 := fun _ => "0.00", fmtVFloat64 := fun _ => "0",
    fmtVFloat32 := fun _ => "0", fmtVFunc := "0x0" }

/-- A logfmt logger with every severity bit clear. -/
def logAllOff : Log := { commonLabels := "", outputMask := 0, outputJSON := false, Writer := 0 }

/-- A logfmt logger with every severity bit set. -/
def logAllOn : Log := { commonLabels := "", outputMask := 127, outputJSON := false, Writer := 0 }

/-- A JSON logger with every severity bit set. -/
def logAllOnJSON : Log := { commonLabels := "", outputMask := 127, outputJSON := true, Writer := 0 }

/-! Helper lemmas shared by the claim theorems. -/

theorem balance_of_even (ls : List GoVal) (h : ls.length % 2 = 0) : balance ls = ls := by
  simp [balance, h]

theorem balance_even (ls : List GoVal) : (balance ls).length % 2 = 0 := by
  unfold balance
  split
  · simp only [List.length_append, List.length_cons, List.length_nil]
    omega
  · omega

theorem renderPairsLog_even_isSome (P : Prims) (S : Seps) :
    ∀ (a : List GoVal), a.length % 2 = 0 → ∃ p, renderPairsLog P S a = some p
  | [], _ => ⟨("", 0), rfl⟩
  | [_], h => by simp at h
  | x :: y :: rest, h => by
    have h2 : rest.length % 2 = 0 := by
      simp only [List.length_cons] at h
      omega
    obtain ⟨p, hp⟩ := renderPairsLog_even_isSome P S rest h2
    exact ⟨((renderPairLog P S x y).1 ++ p.1, (renderPairLog P S x y).2 + p.2),
           by simp [renderPairsLog, hp]⟩

theorem renderPairsLog_append (P : Prims) (S : Seps) :
    ∀ (a b : List GoVal), a.length % 2 = 0 →
      renderPairsLog P S (a ++ b)
        = (renderPairsLog P S a).bind fun p =>
            (renderPairsLog P S b).map fun q => (p.1 ++ q.1, p.2 + q.2)
  | [], b, _ => by
    cases hb : renderPairsLog P S b with
    | none => simp [renderPairsLog, hb]
    | some q => simp [renderPairsLog, hb]
  | [_], b, h => by simp at h
  | x :: y :: rest, b, h => by
    have h2 : rest.length % 2 = 0 := by
      simp only [List.length_cons] at h
      omega
    have ih := renderPairsLog_append P S rest b h2
    cases hr : renderPairsLog P S rest with
    | none =>
      rw [hr] at ih
      simp only [Option.bind] at ih
      simp [renderPairsLog, List.cons_append, ih, hr]
    | some p =>
      cases hb : renderPairsLog P S b with
      | none =>
        rw [hr, hb] at ih
        simp only [Option.bind, Option.map] at ih
        simp [renderPairsLog, List.cons_append, ih, hr, hb]
      | some q =>
        rw [hr, hb] at ih
        simp only [Option.bind, Option.map] at ih
        simp [renderPairsLog, List.cons_append, ih, hr, hb,
              String.append_assoc, Nat.add_assoc]

theorem writeLabelsPairs_even_isSome (P : Prims) (oF cF : String) :
    ∀ (a : List GoVal), a.length % 2 = 0 → ∃ s, writeLabelsPairs P oF cF a = some s
  | [], _ => ⟨"", rfl⟩
  | [_], h => by simp at h
  | x :: y :: rest, h => by
    have h2 : rest.length % 2 = 0 := by
      simp only [List.length_cons] at h
      omega
    obtain ⟨s, hs⟩ := writeLabelsPairs_even_isSome P oF cF rest h2
    exact ⟨wlPair P oF cF x y ++ s, by simp [writeLabelsPairs, hs]⟩

theorem writeLabelsPairs_append (P : Prims) (oF cF : String) :
    ∀ (a b : List GoVal), a.length % 2 = 0 →
      writeLabelsPairs P oF cF (a ++ b)
        = (writeLabelsPairs P oF cF a).bind fun s =>
            (writeLabelsPairs P oF cF b).map fun t => s ++ t
  | [], b, _ => by
    cases hb : writeLabelsPairs P oF cF b with
    | none => simp [writeLabelsPairs, hb]
    | some t => simp [writeLabelsPairs, hb]
  | [_], b, h => by simp at h
  | x :: y :: rest, b, h => by
    have h2 : rest.length % 2 = 0 := by
      simp only [List.length_cons] at h
      omega
    have ih := writeLabelsPairs_append P oF cF rest b h2
    cases hr : writeLabelsPairs P oF cF rest with
    | none =>
      rw [hr] at ih
      simp only [Option.bind] at ih
      simp [writeLabelsPairs, List.cons_append, ih, hr]
    | some s =>
      cases hb : writeLabelsPairs P oF cF b with
      | none =>
        rw [hr, hb] at ih
        simp only [Option.bind, Option.map] at ih
        simp [writeLabelsPairs, List.cons_append, ih, hr, hb]
      | some t =>
        rw [hr, hb] at ih
        simp only [Option.bind, Option.map] at ih
        simp [writeLabelsPairs, List.cons_append, ih, hr, hb, String.append_assoc]

/-! Claim theorems. -/

/-- C8: every identifier the internal generator produces from the random
non-negative integer has length exactly 19, the width of the padding
string: the decimal digits are right-padded with the filler characters and
the concatenation is truncated to that width. -/
theorem c8_spanid_constant_length (n : Nat) : (newSpanID n).length = 19 := by
  have h19 : spanPad.data.length = 19 := rfl
  show (((toString n).data ++ spanPad.data).take spanPad.data.length).length = 19
  rw [List.length_take, List.length_append, h19]
  omega

/-- C9: SetOutputJSON on the default logger rebuilds it with an empty
common-label fragment (previously accumulated common labels are discarded)
while keeping the previous output mask and writer and installing the
requested format. -/
theorem c9_setoutputjson_resets_labels (P : Prims) (d : Log) (v : Bool) :
    SetOutputJSON P d v
      = some { commonLabels := "", outputMask := d.outputMask,
               outputJSON := v, Writer := d.Writer } := by
  cases v <;> rfl

/-- C7: attaching a non-empty trace identifier to a carrier makes TraceID
return exactly that identifier, and TraceID of a carrier with no trace
identifier attached is the empty string. -/
theorem c7_traceid_roundtrip (ctx : Ctx) (t genID : String) :
    (t ≠ "" → TraceID (ContextFrom ctx t genID) = t) ∧
    (hasTraceID ctx = false → TraceID ctx = "") := by
  constructor
  · intro ht
    simp [TraceID, ContextFrom, ctxValue, ht]
  · intro h
    cases hv : ctxValue ctx CtxKey.traceKey with
    | none => simp [TraceID, hv]
    | some s => simp [hasTraceID, hv] at h

theorem c7_traceid_roundtrip_witness :
    TraceID (ContextFrom Ctx.background "abc" "gen") = "abc"
    ∧ TraceID Ctx.background = "" :=
  ⟨(c7_traceid_roundtrip Ctx.background "abc" "gen").1 (by decide),
   (c7_traceid_roundtrip Ctx.background "abc" "gen").2 rfl⟩

/-- C1: evaluation of WithLabels at a JSON-format parent. The derived Log
keeps the parent's mask and Writer and appends the newly rendered fragment
(rendered with the parent's JSON separators) to the parent's fragment, but
its outputJSON field is false: the composite literal in the Go source names
only outputMask, commonLabels and Writer, so the format is not inherited
and the derived logger silently falls back to logfmt while carrying a
JSON-rendered fragment. -/
theorem c1_withlabels_drops_format :
    Log.WithLabels Prims0 logAllOnJSON [GoVal.str "k", GoVal.str "v"]
      = some { commonLabels := ", \"k\": \"v\"", outputMask := 127,
               outputJSON := false, Writer := 0 }
    ∧ logAllOnJSON.outputJSON = true :=
  ⟨rfl, rfl⟩

/-- C6 counterexample: in the common-label pre-rendering path (writeLabels,
used by New and WithLabels) a pair whose key is not a string is skipped
entirely, not emitted with a fallback rendering: the resulting fragment is
empty. -/
theorem c6_common_path_skips_pair :
    writeLabels Prims0 false [GoVal.bool true, GoVal.str "v"] = some "" := rfl

/-- C6 amended: for a pair whose key is not a string, the per-call encoding
path falls back to the generic textual rendering of the key and still emits
the pair, while the common-label pre-rendering path used by New and
WithLabels skips the pair entirely. -/
theorem c6_nonstring_key_fallback (P : Prims) (S : Seps) (oF cF : String)
    (k v : GoVal) (h : isStrKey k = false) :
    (renderPairLog P S k v).1
      = S.openField ++ goFmtV P k ++ S.closeField ++ (renderVal P v).1
    ∧ wlPair P oF cF k v = "" := by
  constructor
  · simp [renderPairLog, h]
  · cases k <;> simp_all [wlPair, isStrKey]

theorem c6_nonstring_key_fallback_witness :
    (renderPairLog Prims0 logfmtSeps (GoVal.int 7) (GoVal.str "v")).1
      = logfmtSeps.openField ++ goFmtV Prims0 (GoVal.int 7)
        ++ logfmtSeps.closeField ++ (renderVal Prims0 (GoVal.str "v")).1
    ∧ wlPair Prims0 " " "=" (GoVal.int 7) (GoVal.str "v") = "" :=
  c6_nonstring_key_fallback Prims0 logfmtSeps " " "=" (GoVal.int 7) (GoVal.str "v") rfl

theorem msgTail_length_pos (S : Seps) (m : String) : 0 < (msgTail S m).length := by
  have h1 : ("\n" : String).length = 1 := rfl
  simp only [msgTail, String.length_append, h1]
  omega

theorem gatedEmit_gate_closed (P : Prims) (l : Log) (flag : Nat)
    (sev tid ts msg : String) (err : Option String) (labels : List GoVal)
    (fatalAfter : Bool) (h : l.outputMask &&& flag = 0) :
    gatedEmit P l flag sev tid ts msg err labels fatalAfter = some ⟨"", 0, false⟩ := by
  simp [gatedEmit, h]

theorem gatedEmit_gate_open (P : Prims) (l : Log) (flag : Nat)
    (sev tid ts msg : String) (err : Option String) (labels : List GoVal)
    (fatalAfter : Bool) (h : l.outputMask &&& flag ≠ 0) :
    (gatedEmit P l flag sev tid ts msg err labels fatalAfter).isSome = true
    ∧ Option.map EmitResult.written (gatedEmit P l flag sev tid ts msg err labels fatalAfter)
        ≠ some "" := by
  obtain ⟨⟨frag, n⟩, hp⟩ :=
    renderPairsLog_even_isSome P (sepsFor l.outputJSON) (balance labels) (balance_even labels)
  have hline : logLine P l tid ts sev msg err labels
      = some (lineHead l tid ts sev err ++ frag ++ msgTail (sepsFor l.outputJSON) msg, n) := by
    simp [logLine, hp]
  constructor
  · simp [gatedEmit, h, hline]
  · simp only [gatedEmit, if_neg h, hline, Option.map_some]
    intro hcontr
    have hmt := msgTail_length_pos (sepsFor l.outputJSON) msg
    have hlen := congrArg String.length (Option.some.inj hcontr)
    simp only [String.length_append] at hlen
    have hz : ("" : String).length = 0 := rfl
    rw [hz] at hlen
    omega

/-- C2: for every severity operation, mask, trace identifier, timestamp,
message, error value and label sequence: the call writes a (non-empty) line
iff the mask has that severity's bit set; when the bit is unset the call
returns immediately with zero bytes written, zero lazy thunks invoked and
the termination hook not invoked. -/
theorem c2_mask_gates_all_severities (P : Prims) (s : Sev) (l : Log)
    (tid ts msg : String) (err : Option String) (labels : List GoVal) :
    (l.outputMask &&& flagOf s = 0 →
        callSev P s l tid ts msg err labels = some ⟨"", 0, false⟩) ∧
    (l.outputMask &&& flagOf s ≠ 0 →
        (callSev P s l tid ts msg err labels).isSome = true
        ∧ Option.map EmitResult.written (callSev P s l tid ts msg err labels) ≠ some "") := by
  cases s <;>
    exact ⟨fun h => gatedEmit_gate_closed P l _ _ tid ts msg _ _ _ h,
           fun h => gatedEmit_gate_open P l _ _ tid ts msg _ _ _ h⟩

theorem c2_mask_gates_witness :
    callSev Prims0 Sev.debug logAllOff "t" "ts" "m" none [] = some ⟨"", 0, false⟩
    ∧ ((callSev Prims0 Sev.debug logAllOn "t" "ts" "m" none []).isSome = true
       ∧ Option.map EmitResult.written
           (callSev Prims0 Sev.debug logAllOn "t" "ts" "m" none []) ≠ some "") :=
  ⟨(c2_mask_gates_all_severities Prims0 Sev.debug logAllOff "t" "ts" "m" none []).1 (by decide),
   (c2_mask_gates_all_severities Prims0 Sev.debug logAllOn "t" "ts" "m" none []).2 (by decide)⟩

/-- C3: for each supported lazy-thunk kind, the rendered field text equals
the rendering of the directly supplied value, with exactly one thunk
invocation; and on an emitted Debug log a lazy string label yields the same
written line as the direct value with exactly one thunk invocation (the
direct form invoking zero). -/
theorem c3_lazy_equals_direct (P : Prims) :
    (∀ f : Unit → String,
        renderVal P (GoVal.fnStr f) = ((renderVal P (GoVal.str (f ()))).1, 1)) ∧
    (∀ f : Unit → Int,
        renderVal P (GoVal.fnInt f) = ((renderVal P (GoVal.int (f ()))).1, 1)) ∧
    (∀ f : Unit → Nat,
        renderVal P (GoVal.fnUint f) = ((renderVal P (GoVal.uint (f ()))).1, 1)) ∧
    (∀ f : Unit → Bool,
        renderVal P (GoVal.fnBool f) = ((renderVal P (GoVal.bool (f ()))).1, 1)) ∧
    (∀ f : Unit → Float,
        renderVal P (GoVal.fnFloat32 f) = ((renderVal P (GoVal.float32 (f ()))).1, 1)) ∧
    (∀ f : Unit → Float,
        renderVal P (GoVal.fnFloat64 f) = ((renderVal P (GoVal.float64 (f ()))).1, 1)) ∧
    (∀ (l : Log) (tid ts msg k : String) (f : Unit → String),
        l.outputMask &&& OutputFlagDebug ≠ 0 →
        Log.Debug P l tid ts msg [GoVal.str k, GoVal.fnStr f]
          = Option.map (fun r => EmitResult.mk r.written 1 false)
              (Log.Debug P l tid ts msg [GoVal.str k, GoVal.str (f ())])
        ∧ Option.map EmitResult.thunks
            (Log.Debug P l tid ts msg [GoVal.str k, GoVal.str (f ())]) = some 0) := by
  refine ⟨fun f => rfl, fun f => rfl, fun f => rfl, fun f => rfl, fun f => rfl, fun f => rfl, ?_⟩
  intro l tid ts msg k f hb
  constructor
  · simp [Log.Debug, gatedEmit, hb, logLine, balance, renderPairsLog, renderPairLog,
          renderVal, isStrKey, strKey]
  · simp [Log.Debug, gatedEmit, hb, logLine, balance, renderPairsLog, renderPairLog,
          renderVal, isStrKey, strKey]

theorem c3_lazy_equals_direct_witness :
    renderVal Prims0 (GoVal.fnStr (fun _ => "x")) = ((renderVal Prims0 (GoVal.str "x")).1, 1)
    ∧ (Log.Debug Prims0 logAllOn "t" "ts" "m" [GoVal.str "k", GoVal.fnStr (fun _ => "x")]
         = Option.map (fun r => EmitResult.mk r.written 1 false)
             (Log.Debug Prims0 logAllOn "t" "ts" "m" [GoVal.str "k", GoVal.str "x"])
       ∧ Option.map EmitResult.thunks
           (Log.Debug Prims0 logAllOn "t" "ts" "m" [GoVal.str "k", GoVal.str "x"]) = some 0) :=
  ⟨(c3_lazy_equals_direct Prims0).1 (fun _ => "x"),
   (c3_lazy_equals_direct Prims0).2.2.2.2.2.2 logAllOn "t" "ts" "m" "k" (fun _ => "x") (by decide)⟩

set_option maxRecDepth 8192 in
/-- C4 counterexample: a Trace call with the odd-length caller label
sequence containing just the key "k" passes the mask check but, after the
internal append of "trace", true and the sentinel balancing, pairs up as
k="trace" and true="#missing#": the emitted line contains no trailing
trace=true label at all, refuting the claim for odd-length caller
sequences. -/
theorem c4_odd_labels_break_trace :
    Log.Trace Prims0 logAllOn "t" "ts" "m" [GoVal.str "k"]
      = some ⟨"trace=\"t\" severity=\"DEBUG\" timestamp=\"ts\" k=\"trace\" true=\"#missing#\" message=\"m\"\n",
              0, false⟩
    ∧ ¬ List.IsInfix (" trace=true".data)
        ("trace=\"t\" severity=\"DEBUG\" timestamp=\"ts\" k=\"trace\" true=\"#missing#\" message=\"m\"\n".data) :=
  ⟨rfl, by decide⟩

/-- C4 amended: for every even-length caller-supplied label sequence, a
Trace call that passes the mask check emits a line with severity field
DEBUG whose rendered labels are the caller-supplied labels (in order,
rendered as frag) followed by the forced trailing label trace=true,
immediately before the message field; a caller-supplied trace label inside
the sequence is rendered as part of frag, not deduplicated, with the forced
true value last. -/
theorem c4_trace_even_labels (P : Prims) (l : Log) (tid ts msg : String)
    (labels : List GoVal) (frag : String) (n : Nat)
    (hp : renderPairsLog P (sepsFor l.outputJSON) labels = some (frag, n))
    (hlen : labels.length % 2 = 0)
    (hb : l.outputMask &&& OutputFlagTrace ≠ 0) :
    Log.Trace P l tid ts msg labels
      = some ⟨lineHead l tid ts "DEBUG" none
              ++ (frag ++ ((sepsFor l.outputJSON).openField ++ "trace"
                           ++ (sepsFor l.outputJSON).closeField ++ "true"))
              ++ msgTail (sepsFor l.outputJSON) msg, n, false⟩ := by
  have hbal : balance (labels ++ [GoVal.str "trace", GoVal.bool true])
      = labels ++ [GoVal.str "trace", GoVal.bool true] := by
    apply balance_of_even
    simp only [List.length_append, List.length_cons, List.length_nil]
    omega
  have happ := renderPairsLog_append P (sepsFor l.outputJSON) labels
      [GoVal.str "trace", GoVal.bool true] hlen
  rw [hp] at happ
  simp only [renderPairsLog, renderPairLog, renderVal, isStrKey, strKey, if_true,
             Option.bind_some, Option.map_some] at happ
  simp [Log.Trace, gatedEmit, hb, logLine, hbal, happ, String.append_assoc]

theorem c4_trace_even_labels_witness :
    Log.Trace Prims0 logAllOn "t" "ts" "m" []
      = some ⟨lineHead logAllOn "t" "ts" "DEBUG" none
              ++ ("" ++ ((sepsFor logAllOn.outputJSON).openField ++ "trace"
                         ++ (sepsFor logAllOn.outputJSON).closeField ++ "true"))
              ++ msgTail (sepsFor logAllOn.outputJSON) "m", 0, false⟩ :=
  c4_trace_even_labels Prims0 logAllOn "t" "ts" "m" [] "" 0 rfl rfl (by decide)

/-- C5: for every odd-length label sequence (front of even length plus a
final unpaired element), the sentinel value "#missing#" is appended before
pair processing, the final element is processed as a key paired with the
value "#missing#" in both the per-call path and the common-label path of
New and WithLabels, and in both paths processing succeeds (no out-of-bounds
index access, modelled as none, occurs) with no error surfaced. -/
theorem c5_odd_labels_sentinel (P : Prims) (S : Seps) (oF cF : String)
    (front : List GoVal) (lastv : GoVal) (h : front.length % 2 = 0) :
    balance (front ++ [lastv]) = front ++ [lastv, GoVal.str "#missing#"] ∧
    renderPairsLog P S (balance (front ++ [lastv]))
      = Option.map (fun p => (p.1 ++ (renderPairLog P S lastv (GoVal.str "#missing#")).1,
                              p.2 + (renderPairLog P S lastv (GoVal.str "#missing#")).2))
          (renderPairsLog P S front) ∧
    (renderPairsLog P S (balance (front ++ [lastv]))).isSome = true ∧
    writeLabelsPairs P oF cF (balance (front ++ [lastv]))
      = Option.map (fun s => s ++ wlPair P oF cF lastv (GoVal.str "#missing#"))
          (writeLabelsPairs P oF cF front) ∧
    (writeLabelsPairs P oF cF (balance (front ++ [lastv]))).isSome = true := by
  have hbal : balance (front ++ [lastv]) = front ++ [lastv, GoVal.str "#missing#"] := by
    unfold balance
    rw [if_pos]
    · simp
    · simp only [List.length_append, List.length_cons, List.length_nil]
      omega
  have hrp : renderPairsLog P S (balance (front ++ [lastv]))
      = Option.map (fun p => (p.1 ++ (renderPairLog P S lastv (GoVal.str "#missing#")).1,
                              p.2 + (renderPairLog P S lastv (GoVal.str "#missing#")).2))
          (renderPairsLog P S front) := by
    rw [hbal, show front ++ [lastv, GoVal.str "#missing#"]
          = front ++ ([lastv, GoVal.str "#missing#"] : List GoVal) from rfl,
        renderPairsLog_append P S front [lastv, GoVal.str "#missing#"] h]
    cases renderPairsLog P S front with
    | none => rfl
    | some p => simp [renderPairsLog]
  have hwl : writeLabelsPairs P oF cF (balance (front ++ [lastv]))
      = Option.map (fun s => s ++ wlPair P oF cF lastv (GoVal.str "#missing#"))
          (writeLabelsPairs P oF cF front) := by
    rw [hbal, writeLabelsPairs_append P oF cF front [lastv, GoVal.str "#missing#"] h]
    cases writeLabelsPairs P oF cF front with
    | none => rfl
    | some s => simp [writeLabelsPairs]
  refine ⟨hbal, hrp, ?_, hwl, ?_⟩
  · rw [hrp]
    obtain ⟨p, hpf⟩ := renderPairsLog_even_isSome P S front h
    simp [hpf]
  · rw [hwl]
    obtain ⟨s, hsf⟩ := writeLabelsPairs_even_isSome P oF cF front h
    simp [hsf]

theorem c5_odd_labels_sentinel_witness :
    balance [GoVal.str "k"] = [GoVal.str "k", GoVal.str "#missing#"] ∧
    renderPairsLog Prims0 logfmtSeps (balance [GoVal.str "k"])
      = Option.map (fun p => (p.1 ++ (renderPairLog Prims0 logfmtSeps (GoVal.str "k")
                                        (GoVal.str "#missing#")).1,
                              p.2 + (renderPairLog Prims0 logfmtSeps (GoVal.str "k")
                                        (GoVal.str "#missing#")).2))
          (renderPairsLog Prims0 logfmtSeps []) ∧
    (renderPairsLog Prims0 logfmtSeps (balance [GoVal.str "k"])).isSome = true ∧
    writeLabelsPairs Prims0 " " "=" (balance [GoVal.str "k"])
      = Option.map (fun s => s ++ wlPair Prims0 " " "=" (GoVal.str "k") (GoVal.str "#missing#"))
          (writeLabelsPairs Prims0 " " "=" []) ∧
    (writeLabelsPairs Prims0 " " "=" (balance [GoVal.str "k"])).isSome = true :=
  c5_odd_labels_sentinel Prims0 logfmtSeps " " "=" [] (GoVal.str "k") rfl

/-- C10: on an emitted Error log, a call-site string label value is placed
verbatim between double quotes with no escaping (so a quote character in
the value appears unescaped in the line), while the error text and the
message text are the only parts passed through the quote-escaping step. -/
theorem c10_values_verbatim (P : Prims) (l : Log) (tid ts msg e k v : String)
    (hv : containsQuote v = true) (hb : l.outputMask &&& OutputFlagError ≠ 0) :
    Log.Error P l tid ts msg (some e) [GoVal.str k, GoVal.str v]
      = some ⟨lineHead l tid ts "ERROR" (some e)
              ++ ((sepsFor l.outputJSON).openField ++ k ++ (sepsFor l.outputJSON).closeField
                  ++ ("\"" ++ v ++ "\""))
              ++ msgTail (sepsFor l.outputJSON) msg, 0, false⟩
    ∧ lineHead l tid ts "ERROR" (some e)
        = lineHeadCore (sepsFor l.outputJSON) tid ts "ERROR"
          ++ "\"" ++ (sepsFor l.outputJSON).openField ++ "error"
          ++ (sepsFor l.outputJSON).closeField ++ "\"" ++ escapeQuotes e ++ "\""
          ++ l.commonLabels
    ∧ msgTail (sepsFor l.outputJSON) msg
        = (sepsFor l.outputJSON).openField ++ "message" ++ (sepsFor l.outputJSON).closeField
          ++ "\"" ++ escapeQuotes msg ++ "\"" ++ (sepsFor l.outputJSON).closeLog ++ "\n" := by
  refine ⟨?_, ?_, ?_⟩
  · simp [Log.Error, gatedEmit, hb, logLine, balance, renderPairsLog, renderPairLog,
          renderVal, isStrKey, strKey, String.append_assoc]
  · simp [lineHead, lineHeadCore, String.append_assoc]
  · simp [msgTail, String.append_assoc]

theorem c10_values_verbatim_witness :
    Log.Error Prims0 logAllOnJSON "t" "ts" "m" (some "e") [GoVal.str "k", GoVal.str "a\"b"]
      = some ⟨lineHead logAllOnJSON "t" "ts" "ERROR" (some "e")
              ++ ((sepsFor logAllOnJSON.outputJSON).openField ++ "k"
                  ++ (sepsFor logAllOnJSON.outputJSON).closeField
                  ++ ("\"" ++ "a\"b" ++ "\""))
              ++ msgTail (sepsFor logAllOnJSON.outputJSON) "m", 0, false⟩
    ∧ lineHead logAllOnJSON "t" "ts" "ERROR" (some "e")
        = lineHeadCore (sepsFor logAllOnJSON.outputJSON) "t" "ts" "ERROR"
          ++ "\"" ++ (sepsFor logAllOnJSON.outputJSON).openField ++ "error"
          ++ (sepsFor logAllOnJSON.outputJSON).closeField ++ "\"" ++ escapeQuotes "e" ++ "\""
          ++ logAllOnJSON.commonLabels
    ∧ msgTail (sepsFor logAllOnJSON.outputJSON) "m"
        = (sepsFor logAllOnJSON.outputJSON).openField ++ "message"
          ++ (sepsFor logAllOnJSON.outputJSON).closeField
          ++ "\"" ++ escapeQuotes "m" ++ "\"" ++ (sepsFor logAllOnJSON.outputJSON).closeLog ++ "\n" :=
  c10_values_verbatim Prims0 logAllOnJSON "t" "ts" "m" "e" "k" "a\"b" rfl (by decide)

end QLog
